import Mathlib

/-!
Shallow embedding of the tag-bumper CLI (src/index.js): tag classification,
the git gateway operations, the retarget engine (updateTag / updateRootTag),
and the interactive main workflow, together with theorems about them.
-/

namespace TagBumper

/-- Test of the JS regex `^v\d+` (as used by `getRootTag`): the string starts
with `v` followed by at least one decimal digit. -/
def testRootPattern (s : String) : Bool :=
  match s.data with
  | c0 :: c1 :: _ => c0 == 'v' && c1.isDigit
  | _ => false

/-- Test of the JS regex `^v\d+\.\d+` (as used by `filterVersionTags`): `v`,
one or more digits, a literal dot, then at least one more digit. -/
def testVersionPattern (s : String) : Bool :=
  match s.data with
  | c0 :: rest =>
    c0 == 'v' && !(rest.takeWhile Char.isDigit).isEmpty &&
      (match rest.dropWhile Char.isDigit with
       | d :: c :: _ => d == '.' && c.isDigit
       | _ => false)
  | _ => false

/-- Model of `filterVersionTags(tags)` from src/index.js. -/
def filterVersionTags (tags : List String) : List String :=
  tags.filter testVersionPattern

/-- Model of `getRootTag(tags)` from src/index.js: the first tag matching `^v\d+`. -/
def getRootTag (tags : List String) : Option String :=
  tags.find? testRootPattern

/-- Model of `filterNonRootTags(tags)` from src/index.js. -/
def filterNonRootTags (tags : List String) : List String :=
  match getRootTag tags with
  | some rootTag => tags.filter (fun tag => tag != rootTag)
  | none => tags

/-- The spec's notion of a bare major-version tag: matches `^v\d+` with no
following `.minor` component (e.g. `v2` but not `v2.3`). Written from the
spec's words, for comparison with the source's `getRootTag`. -/
def bareMajorSpec (s : String) : Bool :=
  testRootPattern s && !(testVersionPattern s)

/-- The spec's reading of root-tag search: first element that is a bare
major-version tag. Written from the spec's words, for comparison with the
source's `getRootTag`. -/
def getRootTagSpec (tags : List String) : Option String :=
  tags.find? bareMajorSpec

/-- Model of `shortenCommitHash` from src/index.js: first 7 characters. -/
def shortenCommitHash (commitHash : String) : String :=
  commitHash.take 7

/-- The git world: local tag refs, remote tag refs (both name-to-commit
association lists) and the commit `HEAD` resolves to. -/
structure GitRepo where
  localTags : List (String × String)
  remoteTags : List (String × String)
  head : String
deriving Repr, DecidableEq

/-- Which external git operations succeed in a run: repository presence,
`git fetch`, `rev-parse HEAD`, and per-tag delete, create and push success. -/
structure Env where
  repoOk : Bool
  fetchOk : Bool
  headOk : Bool
  deleteOk : String → Bool
  createOk : String → Bool
  pushOk : String → Bool

/-- A Change Record `{ tag, oldCommitHash, newCommitHash }` as returned by
`updateTag` / `updateRootTag` and accumulated in `changes`. -/
structure Change where
  tag : String
  oldCommitHash : String
  newCommitHash : String
deriving Repr, DecidableEq

/-- The result of a fallible git helper: a value, or the process terminated
through `process.exit`. -/
inductive GitResult (α : Type) where
  | ok : α → GitResult α
  | exited : Nat → GitResult α
deriving Repr, DecidableEq

/-- First commit associated to a tag name in an association list. -/
def lookupTag : List (String × String) → String → Option String
  | [], _ => none
  | (a, c) :: rest, t => if a = t then some c else lookupTag rest t

/-- Remove every binding of a tag name from an association list. -/
def removeTag : List (String × String) → String → List (String × String)
  | [], _ => []
  | (a, c) :: rest, t =>
    if a = t then removeTag rest t else (a, c) :: removeTag rest t

/-- Rebind a tag name in an association list (used for the remote update a
force-push performs). -/
def setTag (l : List (String × String)) (t c : String) : List (String × String) :=
  removeTag l t ++ [(t, c)]

/-- Model of `isGitRepo()` from src/index.js: `git.status()` succeeds, or an error
message is printed and `false` returned. -/
def isGitRepo (env : Env) (log : List String) : Bool × List String :=
  if env.repoOk then (true, log)
  else (false, log ++ ["Not a Git repository."])

/-- Model of `getTags()` from src/index.js: fetch tags then list them; on failure
print an error and `process.exit(1)`. -/
def getTags (env : Env) (r : GitRepo) (log : List String) :
    GitResult (List String) × List String :=
  if env.fetchOk then (.ok (r.localTags.map Prod.fst), log)
  else (.exited 1, log ++ ["Error fetching tags."])

/-- Model of `getLatestCommitHash()` from src/index.js: `rev-parse HEAD`; on failure
print an error and `process.exit(1)`. -/
def getLatestCommitHash (env : Env) (r : GitRepo) (log : List String) :
    GitResult String × List String :=
  if env.headOk then (.ok r.head, log)
  else (.exited 1, log ++ ["Error retrieving latest commit hash."])

/-- Model of `getCommitOfTag(tag)` from src/index.js: `rev-parse tag`; on failure
print an error and `process.exit(1)`. -/
def getCommitOfTag (r : GitRepo) (tag : String) (log : List String) :
    GitResult String × List String :=
  match lookupTag r.localTags tag with
  | some c => (.ok c, log)
  | none => (.exited 1, log ++ ["Error retrieving commit hash for tag."])

/-- Model of `deleteLocalTag(tag)` from src/index.js: `git tag -d tag`; that command
succeeds only when the tag exists locally. On failure print an error and
`process.exit(1)`. -/
def deleteLocalTag (env : Env) (r : GitRepo) (tag : String) (log : List String) :
    GitResult Unit × GitRepo × List String :=
  if env.deleteOk tag && (lookupTag r.localTags tag).isSome then
    (.ok (), { r with localTags := removeTag r.localTags tag },
      log ++ [s!"Local tag {tag} deleted."])
  else
    (.exited 1, r, log ++ ["Error deleting local tag."])

/-- Model of `git.tag([tag, commitHash])` as called inside `updateTag` /
`updateRootTag`: creates the tag locally, failing when a tag of that name
already exists. The failure is an exception handled by the caller. -/
def createTag (env : Env) (r : GitRepo) (tag commitHash : String) :
    GitResult GitRepo :=
  if env.createOk tag && (lookupTag r.localTags tag).isNone then
    .ok { r with localTags := r.localTags ++ [(tag, commitHash)] }
  else
    .exited 1

/-- Model of `forcePushTag(tag)` from src/index.js: force-push the local ref
`refs/tags/tag` to the remote; on failure print an error and
`process.exit(1)`. -/
def forcePushTag (env : Env) (r : GitRepo) (tag : String) (log : List String) :
    GitResult Unit × GitRepo × List String :=
  match lookupTag r.localTags tag with
  | some c =>
    if env.pushOk tag then
      (.ok (), { r with remoteTags := setTag r.remoteTags tag c },
        log ++ [s!"Tag {tag} force-pushed to GitHub."])
    else (.exited 1, r, log ++ ["Error force-pushing tag."])
  | none => (.exited 1, r, log ++ ["Error force-pushing tag."])

/-- Model of `updateTag(tag, commitHash)` from src/index.js: resolve the old commit,
then delete, recreate at the destination and force-push; a create failure is
caught, reported and turned into `process.exit(1)`. Returns the Change
Record on success. -/
def updateTag (env : Env) (r : GitRepo) (log : List String)
    (tag commitHash : String) : GitResult Change × GitRepo × List String :=
  match getCommitOfTag r tag log with
  | (.exited n, log0) => (.exited n, r, log0)
  | (.ok oldCommitHash, log0) =>
    let log1 := log0 ++
      [s!"Updating tag {tag} to point to commit {shortenCommitHash commitHash}"]
    match deleteLocalTag env r tag log1 with
    | (.exited n, r1, log2) => (.exited n, r1, log2)
    | (.ok _, r1, log2) =>
      match createTag env r1 tag commitHash with
      | .exited _ => (.exited 1, r1, log2 ++ ["Error updating tag."])
      | .ok r2 =>
        match forcePushTag env r2 tag log2 with
        | (.exited n, r3, log3) => (.exited n, r3, log3)
        | (.ok _, r3, log3) =>
          (.ok ⟨tag, oldCommitHash, commitHash⟩, r3,
            log3 ++ [s!"Tag {tag} updated from {shortenCommitHash oldCommitHash} to {shortenCommitHash commitHash}"])

/-- Model of `updateRootTag(rootTag, commitHash)` from src/index.js: identical to
`updateTag` except for the messages it prints. -/
def updateRootTag (env : Env) (r : GitRepo) (log : List String)
    (rootTag commitHash : String) : GitResult Change × GitRepo × List String :=
  match getCommitOfTag r rootTag log with
  | (.exited n, log0) => (.exited n, r, log0)
  | (.ok oldCommitHash, log0) =>
    let log1 := log0 ++
      [s!"Updating root tag {rootTag} to point to commit {shortenCommitHash commitHash}"]
    match deleteLocalTag env r rootTag log1 with
    | (.exited n, r1, log2) => (.exited n, r1, log2)
    | (.ok _, r1, log2) =>
      match createTag env r1 rootTag commitHash with
      | .exited _ => (.exited 1, r1, log2 ++ ["Error updating root tag."])
      | .ok r2 =>
        match forcePushTag env r2 rootTag log2 with
        | (.exited n, r3, log3) => (.exited n, r3, log3)
        | (.ok _, r3, log3) =>
          (.ok ⟨rootTag, oldCommitHash, commitHash⟩, r3,
            log3 ++ [s!"Root tag {rootTag} updated from {shortenCommitHash oldCommitHash} to {shortenCommitHash commitHash}"])

/-- The errors that can reach `main`'s catch block: an `ExitPromptError`
thrown when the user abandons a prompt, or any other uncaught error. -/
inductive JsError where
  | exitPromptError : JsError
  | otherError : JsError
deriving Repr, DecidableEq

/-- How a prompt resolves: the user answers, or abandons the prompt
(raising `ExitPromptError`). -/
inductive PromptResult (α : Type) where
  | answer : α → PromptResult α
  | cancel : PromptResult α
deriving Repr, DecidableEq

/-- The user's responses to the four prompts `main` can show: the action
selection, the tag selection, the main confirmation, and the cascade
(root-tag) confirmation. -/
structure UserInput where
  action : PromptResult String
  selectTag : PromptResult String
  confirmUpdate : PromptResult Bool
  confirmRoot : PromptResult Bool
deriving Repr, DecidableEq

/-- How `main`'s body ends: a normal return (`true` when it fell off the end
of a workflow, `false` for the early not-a-repository return), a
`process.exit`, or an uncaught exception. -/
inductive StepResult (α : Type) where
  | ok : α → StepResult α
  | exited : Nat → StepResult α
  | threw : JsError → StepResult α
deriving Repr, DecidableEq

/-- The observable outcome of a whole run: process exit code, final git
state, the accumulated Change Records, the console log, and whether the run
fell off the end of a completed workflow. -/
structure RunResult where
  exitCode : Nat
  repo : GitRepo
  changes : List Change
  log : List String
  completed : Bool
deriving Repr, DecidableEq

/-- The summary block at the end of `main`: printed only when at least one
Change Record was accumulated. -/
def summarize (changes : List Change) (log : List String) : List String :=
  if changes.isEmpty then log
  else (log ++ ["Summary of changes:"]) ++
    changes.map (fun change =>
      s!"Tag {change.tag}: {shortenCommitHash change.oldCommitHash} -> {shortenCommitHash change.newCommitHash}")

/-- Model of `main`'s catch block from src/index.js: an `ExitPromptError` is reported
neutrally, every other error generically; both end in `process.exit(1)`. -/
def mainCatch (e : JsError) (log : List String) : Nat × List String :=
  match e with
  | .exitPromptError => (1, log ++ ["Canceled by User"])
  | .otherError => (1, log ++ ["An unexpected error occurred."])

/-- The body of `main()` from src/index.js, from the repository check up to
and including the summary block, with the try/catch dispatch factored out
into `main` below. Returns how the body ended together with the final git
state, the `changes` array and the log. -/
def mainBody (env : Env) (inp : UserInput) (r : GitRepo) :
    StepResult Bool × GitRepo × List Change × List String :=
  match isGitRepo env [] with
  | (false, log) => (.ok false, r, [], log)
  | (true, log) =>
    match inp.action with
    | .cancel => (.threw .exitPromptError, r, [], log)
    | .answer action =>
      if action = "update" then
        match getTags env r log with
        | (.exited n, log1) => (.exited n, r, [], log1)
        | (.ok tags, log1) =>
          let nonRootTags := filterNonRootTags tags
          if nonRootTags.length = 0 then
            (.exited 1, r, [], log1 ++ ["No tags available for update."])
          else
            match inp.selectTag with
            | .cancel => (.threw .exitPromptError, r, [], log1)
            | .answer selectedTag =>
              if selectedTag = "" then
                (.exited 1, r, [], log1 ++ ["Selected tag is undefined or null."])
              else
                match getLatestCommitHash env r log1 with
                | (.exited n, log2) => (.exited n, r, [], log2)
                | (.ok latestCommitHash, log2) =>
                  match inp.confirmUpdate with
                  | .cancel => (.threw .exitPromptError, r, [], log2)
                  | .answer false =>
                    (.ok true, r, [], summarize [] (log2 ++ ["Tag update canceled."]))
                  | .answer true =>
                    match getRootTag tags with
                    | some rootTag =>
                      match getCommitOfTag r rootTag log2 with
                      | (.exited n, log3) => (.exited n, r, [], log3)
                      | (.ok rootTagCommitHash, log3) =>
                        match getCommitOfTag r selectedTag log3 with
                        | (.exited n, log4) => (.exited n, r, [], log4)
                        | (.ok selectedTagCommitHash, log4) =>
                          if rootTagCommitHash = selectedTagCommitHash then
                            match updateTag env r log4 selectedTag latestCommitHash with
                            | (.exited n, r1, log5) => (.exited n, r1, [], log5)
                            | (.ok updatedTag, r1, log5) =>
                              let log6 := log5 ++
                                [s!"Tag {selectedTag} was updated. Found a matching root tag {rootTag}."]
                              match inp.confirmRoot with
                              | .cancel => (.threw .exitPromptError, r1, [updatedTag], log6)
                              | .answer false =>
                                (.ok true, r1, [updatedTag],
                                  summarize [updatedTag] (log6 ++ ["Root tag update skipped."]))
                              | .answer true =>
                                match updateRootTag env r1 log6 rootTag latestCommitHash with
                                | (.exited n, r2, log7) => (.exited n, r2, [updatedTag], log7)
                                | (.ok updatedRootTag, r2, log7) =>
                                  (.ok true, r2, [updatedTag, updatedRootTag],
                                    summarize [updatedTag, updatedRootTag] log7)
                          else
                            match updateTag env r log4 selectedTag latestCommitHash with
                            | (.exited n, r1, log5) => (.exited n, r1, [], log5)
                            | (.ok updatedTag, r1, log5) =>
                              (.ok true, r1, [updatedTag], summarize [updatedTag] log5)
                    | none =>
                      match updateTag env r log2 selectedTag latestCommitHash with
                      | (.exited n, r1, log3) => (.exited n, r1, [], log3)
                      | (.ok updatedTag, r1, log3) =>
                        (.ok true, r1, [updatedTag], summarize [updatedTag] log3)
      else if action = "bump" then
        match getTags env r log with
        | (.exited n, log1) => (.exited n, r, [], log1)
        | (.ok tags, log1) =>
          let versionTags := filterVersionTags tags
          if versionTags.length = 0 then
            (.exited 1, r, [], log1 ++ ["No version tags found."])
          else
            match inp.selectTag with
            | .cancel => (.threw .exitPromptError, r, [], log1)
            | .answer selectedTag =>
              if selectedTag = "" then
                (.exited 1, r, [], log1 ++ ["Selected tag is undefined or null."])
              else
                match getRootTag tags with
                | none => (.exited 1, r, [], log1 ++ ["No root tag found. Exiting."])
                | some rootTag =>
                  match getCommitOfTag r selectedTag log1 with
                  | (.exited n, log2) => (.exited n, r, [], log2)
                  | (.ok commitHash, log2) =>
                    match inp.confirmUpdate with
                    | .cancel => (.threw .exitPromptError, r, [], log2)
                    | .answer false =>
                      (.ok true, r, [], summarize [] (log2 ++ ["Root tag update canceled."]))
                    | .answer true =>
                      match updateRootTag env r log2 rootTag commitHash with
                      | (.exited n, r1, log3) => (.exited n, r1, [], log3)
                      | (.ok updatedRootTag, r1, log3) =>
                        (.ok true, r1, [updatedRootTag],
                          summarize [updatedRootTag] log3)
      else (.exited 1, r, [], log ++ ["Invalid action selected."])

/-- Model of `main()` from src/index.js: run the body; a normal return exits with
status 0, a `process.exit` keeps its code, and an uncaught error goes
through the catch block and exits with status 1. -/
def main (env : Env) (inp : UserInput) (r : GitRepo) : RunResult :=
  match mainBody env inp r with
  | (.ok completed, r1, changes, log) => ⟨0, r1, changes, log, completed⟩
  | (.exited n, r1, changes, log) => ⟨n, r1, changes, log, false⟩
  | (.threw e, r1, changes, log) =>
    let h := mainCatch e log
    ⟨h.1, r1, changes, h.2, false⟩

lemma lookupTag_removeTag_self (l : List (String × String)) (t : String) :
    lookupTag (removeTag l t) t = none := by
  induction l with
  | nil => rfl
  | cons p rest ih =>
    rcases p with ⟨a, c⟩
    by_cases ha : a = t
    · simp [removeTag, ha, ih]
    · simp [removeTag, lookupTag, ha, ih]

lemma lookupTag_removeTag_ne (l : List (String × String)) (t u : String)
    (h : u ≠ t) : lookupTag (removeTag l t) u = lookupTag l u := by
  induction l with
  | nil => rfl
  | cons p rest ih =>
    rcases p with ⟨a, c⟩
    by_cases ha : a = t
    · subst ha
      simp [removeTag, lookupTag, Ne.symm h, ih]
    · by_cases hu : a = u
      · simp [removeTag, lookupTag, ha, hu, h]
      · simp [removeTag, lookupTag, ha, hu, ih]

lemma lookupTag_append_right (l1 l2 : List (String × String)) (u : String)
    (h : lookupTag l1 u = none) :
    lookupTag (l1 ++ l2) u = lookupTag l2 u := by
  induction l1 with
  | nil => rfl
  | cons p rest ih =>
    rcases p with ⟨a, c⟩
    by_cases ha : a = u
    · simp [lookupTag, ha] at h
    · simp only [lookupTag, ha, if_false, List.cons_append] at h ⊢
      simp [lookupTag, ha] at h ⊢
      exact ih h

lemma lookupTag_append_left (l1 l2 : List (String × String)) (u c : String)
    (h : lookupTag l1 u = some c) :
    lookupTag (l1 ++ l2) u = some c := by
  induction l1 with
  | nil => simp [lookupTag] at h
  | cons p rest ih =>
    rcases p with ⟨a, d⟩
    by_cases ha : a = u
    · simp [lookupTag, ha] at h ⊢
      exact h
    · simp [lookupTag, ha] at h ⊢
      exact ih h

lemma lookupTag_mem_map_fst (l : List (String × String)) (t c : String)
    (h : lookupTag l t = some c) : t ∈ l.map Prod.fst := by
  induction l with
  | nil => simp [lookupTag] at h
  | cons p rest ih =>
    rcases p with ⟨a, d⟩
    by_cases ha : a = t
    · simp [ha]
    · simp [lookupTag, ha] at h
      simp [ih h]

lemma count_filter_ne (a b : String) (l : List String) (h : a ≠ b) :
    (l.filter (fun x => x != b)).count a = l.count a := by
  induction l with
  | nil => rfl
  | cons x xs ih =>
    by_cases hx : x = b
    · subst hx
      simp [List.count_cons, h, ih]
    · simp [List.filter_cons, hx, List.count_cons, ih]

lemma not_mem_filter_ne (b : String) (l : List String) :
    b ∉ l.filter (fun x => x != b) := by
  intro h
  simp [List.mem_filter] at h

lemma testVersion_imp_testRoot (s : String)
    (h : testVersionPattern s = true) : testRootPattern s = true := by
  unfold testVersionPattern at h
  unfold testRootPattern
  rcases hd : s.data with _ | ⟨c0, rest⟩ <;> rw [hd] at h
  · exact absurd h (by simp)
  · rcases rest with _ | ⟨c1, rest'⟩
    · simp at h
    · by_cases hc1 : c1.isDigit
      · simp only [Bool.and_eq_true, beq_iff_eq] at h
        simp [h.1.1, hc1]
      · simp [List.takeWhile_cons, hc1] at h

lemma updateTag_ok_spec (env : Env) (r : GitRepo) (log : List String)
    (tag dest oldC : String)
    (hl : lookupTag r.localTags tag = some oldC)
    (hd : env.deleteOk tag = true) (hc : env.createOk tag = true)
    (hp : env.pushOk tag = true) :
    updateTag env r log tag dest =
      (.ok ⟨tag, oldC, dest⟩,
       ⟨removeTag r.localTags tag ++ [(tag, dest)],
        setTag r.remoteTags tag dest, r.head⟩,
       log ++ [s!"Updating tag {tag} to point to commit {shortenCommitHash dest}",
               s!"Local tag {tag} deleted.",
               s!"Tag {tag} force-pushed to GitHub.",
               s!"Tag {tag} updated from {shortenCommitHash oldC} to {shortenCommitHash dest}"]) := by
  have hcreate : lookupTag (removeTag r.localTags tag) tag = none :=
    lookupTag_removeTag_self r.localTags tag
  have hpush : lookupTag (removeTag r.localTags tag ++ [(tag, dest)]) tag
      = some dest := by
    rw [lookupTag_append_right _ _ _ hcreate]
    simp [lookupTag]
  unfold updateTag getCommitOfTag deleteLocalTag createTag forcePushTag
  simp only [hl, hd, hc, hcreate, hpush, hp, Option.isSome_some,
    Option.isNone_none, Bool.and_self, Bool.and_true, Bool.true_and,
    if_true, ite_true]
  simp [setTag]

lemma updateRootTag_ok_spec (env : Env) (r : GitRepo) (log : List String)
    (tag dest oldC : String)
    (hl : lookupTag r.localTags tag = some oldC)
    (hd : env.deleteOk tag = true) (hc : env.createOk tag = true)
    (hp : env.pushOk tag = true) :
    updateRootTag env r log tag dest =
      (.ok ⟨tag, oldC, dest⟩,
       ⟨removeTag r.localTags tag ++ [(tag, dest)],
        setTag r.remoteTags tag dest, r.head⟩,
       log ++ [s!"Updating root tag {tag} to point to commit {shortenCommitHash dest}",
               s!"Local tag {tag} deleted.",
               s!"Tag {tag} force-pushed to GitHub.",
               s!"Root tag {tag} updated from {shortenCommitHash oldC} to {shortenCommitHash dest}"]) := by
  have hcreate : lookupTag (removeTag r.localTags tag) tag = none :=
    lookupTag_removeTag_self r.localTags tag
  have hpush : lookupTag (removeTag r.localTags tag ++ [(tag, dest)]) tag
      = some dest := by
    rw [lookupTag_append_right _ _ _ hcreate]
    simp [lookupTag]
  unfold updateRootTag getCommitOfTag deleteLocalTag createTag forcePushTag
  simp only [hl, hd, hc, hcreate, hpush, hp, Option.isSome_some,
    Option.isNone_none, Bool.and_self, Bool.and_true, Bool.true_and,
    if_true, ite_true]
  simp [setTag]

lemma updateTag_shape (env : Env) (r : GitRepo) (log : List String)
    (tag dest : String) :
    (updateTag env r log tag dest).1 = .exited 1 ∨
    ∃ oldC, lookupTag r.localTags tag = some oldC ∧
      env.deleteOk tag = true ∧ env.createOk tag = true ∧
      env.pushOk tag = true ∧
      (updateTag env r log tag dest).1 = .ok ⟨tag, oldC, dest⟩ := by
  rcases hl : lookupTag r.localTags tag with _ | oldC
  · left
    simp [updateTag, getCommitOfTag, hl]
  · by_cases hd : env.deleteOk tag
    · by_cases hc : env.createOk tag
      · by_cases hp : env.pushOk tag
        · right
          exact ⟨oldC, rfl, hd, hc, hp,
            by rw [updateTag_ok_spec env r log tag dest oldC hl hd hc hp]⟩
        · left
          have hcreate : lookupTag (removeTag r.localTags tag) tag = none :=
            lookupTag_removeTag_self r.localTags tag
          have hpush : lookupTag (removeTag r.localTags tag ++ [(tag, dest)]) tag
              = some dest := by
            rw [lookupTag_append_right _ _ _ hcreate]
            simp [lookupTag]
          simp [updateTag, getCommitOfTag, deleteLocalTag, createTag,
            forcePushTag, hl, hd, hc, hcreate, hpush, hp]
      · left
        have hcreate : lookupTag (removeTag r.localTags tag) tag = none :=
          lookupTag_removeTag_self r.localTags tag
        simp [updateTag, getCommitOfTag, deleteLocalTag, createTag,
          forcePushTag, hl, hd, hc, hcreate]
    · left
      simp [updateTag, getCommitOfTag, deleteLocalTag, hl, hd]

lemma updateRootTag_shape (env : Env) (r : GitRepo) (log : List String)
    (tag dest : String) :
    (updateRootTag env r log tag dest).1 = .exited 1 ∨
    ∃ oldC, lookupTag r.localTags tag = some oldC ∧
      env.deleteOk tag = true ∧ env.createOk tag = true ∧
      env.pushOk tag = true ∧
      (updateRootTag env r log tag dest).1 = .ok ⟨tag, oldC, dest⟩ := by
  rcases hl : lookupTag r.localTags tag with _ | oldC
  · left
    simp [updateRootTag, getCommitOfTag, hl]
  · by_cases hd : env.deleteOk tag
    · by_cases hc : env.createOk tag
      · by_cases hp : env.pushOk tag
        · right
          exact ⟨oldC, rfl, hd, hc, hp,
            by rw [updateRootTag_ok_spec env r log tag dest oldC hl hd hc hp]⟩
        · left
          have hcreate : lookupTag (removeTag r.localTags tag) tag = none :=
            lookupTag_removeTag_self r.localTags tag
          have hpush : lookupTag (removeTag r.localTags tag ++ [(tag, dest)]) tag
              = some dest := by
            rw [lookupTag_append_right _ _ _ hcreate]
            simp [lookupTag]
          simp [updateRootTag, getCommitOfTag, deleteLocalTag, createTag,
            forcePushTag, hl, hd, hc, hcreate, hpush, hp]
      · left
        have hcreate : lookupTag (removeTag r.localTags tag) tag = none :=
          lookupTag_removeTag_self r.localTags tag
        simp [updateRootTag, getCommitOfTag, deleteLocalTag, createTag,
          forcePushTag, hl, hd, hc, hcreate]
    · left
      simp [updateRootTag, getCommitOfTag, deleteLocalTag, hl, hd]

lemma lookupTag_setTag_ne (l : List (String × String)) (t c u : String)
    (h : u ≠ t) : lookupTag (setTag l t c) u = lookupTag l u := by
  have h1 := lookupTag_removeTag_ne l t u h
  rcases hl : lookupTag (removeTag l t) u with _ | d
  · rw [setTag, lookupTag_append_right _ _ _ hl, ← h1, hl]
    simp [lookupTag]
    exact fun hh => h (Eq.symm hh)
  · rw [setTag, lookupTag_append_left _ _ _ _ hl, ← h1, hl]

/-- Claim C3: in the update workflow, when the root tag `R` resolves to the same
commit `C` as the selected tag `S`, retargeting `S` to `HEAD` and confirming
the cascade also retargets `R` to `HEAD`, accumulating exactly two Change
Records whose new commit is `HEAD`, and the run exits cleanly. -/
theorem cascade_spec (env : Env) (r : GitRepo) (S R C : String)
    (hrepo : env.repoOk = true) (hfetch : env.fetchOk = true)
    (hhead : env.headOk = true)
    (hdS : env.deleteOk S = true) (hcS : env.createOk S = true)
    (hpS : env.pushOk S = true)
    (hdR : env.deleteOk R = true) (hcR : env.createOk R = true)
    (hpR : env.pushOk R = true)
    (hS0 : S ≠ "") (hSR : S ≠ R)
    (hroot : getRootTag (r.localTags.map Prod.fst) = some R)
    (hlR : lookupTag r.localTags R = some C)
    (hlS : lookupTag r.localTags S = some C) :
    (main env ⟨.answer "update", .answer S, .answer true, .answer true⟩ r).exitCode = 0 ∧
    (main env ⟨.answer "update", .answer S, .answer true, .answer true⟩ r).changes =
      [⟨S, C, r.head⟩, ⟨R, C, r.head⟩] ∧
    lookupTag (main env ⟨.answer "update", .answer S, .answer true, .answer true⟩ r).repo.localTags R = some r.head ∧
    lookupTag (main env ⟨.answer "update", .answer S, .answer true, .answer true⟩ r).repo.remoteTags R = some r.head ∧
    (main env ⟨.answer "update", .answer S, .answer true, .answer true⟩ r).completed = true := by
  have hSmem : S ∈ r.localTags.map Prod.fst :=
    lookupTag_mem_map_fst _ _ _ hlS
  have hSfilter : S ∈ filterNonRootTags (r.localTags.map Prod.fst) := by
    unfold filterNonRootTags
    rw [hroot]
    exact List.mem_filter.mpr ⟨hSmem, by simp [hSR]⟩
  have hne : ¬((filterNonRootTags (r.localTags.map Prod.fst)).length = 0) := by
    intro h0
    rw [List.length_eq_zero] at h0
    rw [h0] at hSfilter
    simp at hSfilter
  have hlR1 : lookupTag (removeTag r.localTags S ++ [(S, r.head)]) R = some C := by
    rw [lookupTag_append_left]
    rw [lookupTag_removeTag_ne _ _ _ (Ne.symm hSR)]
    exact hlR
  unfold main mainBody
  simp only [isGitRepo, hrepo, if_true, ite_true, getTags, hfetch,
    getLatestCommitHash, hhead, getCommitOfTag, hlR, hlS,
    if_neg hne, if_neg hS0]
  rw [hroot]
  simp only [hlR, reduceIte]
  rw [updateTag_ok_spec env r [] S r.head C hlS hdS hcS hpS]
  simp only []
  rw [updateRootTag_ok_spec env
    ⟨removeTag r.localTags S ++ [(S, r.head)], setTag r.remoteTags S r.head, r.head⟩
    _ R r.head C hlR1 hdR hcR hpR]
  simp only [summarize, List.isEmpty_cons, ite_false, List.map_cons,
    List.map_nil]
  refine ⟨trivial, trivial, ?_, ?_, trivial⟩
  · rw [lookupTag_append_right]
    · simp [lookupTag]
    · exact lookupTag_removeTag_self _ _
  · show lookupTag (setTag (setTag r.remoteTags S r.head) R r.head) R = some r.head
    rw [setTag, lookupTag_append_right]
    · simp [lookupTag]
    · exact lookupTag_removeTag_self _ _

/-- All-success environment used by the concrete witnesses. -/
def envAll : Env := ⟨true, true, true, fun _ => true, fun _ => true, fun _ => true⟩

/-- Concrete repository used by the concrete witnesses: root tag `v1` and
version tag `v1.2.0` both at commit `aaaa111`, `v1.1.0` at `bbbb222`,
`HEAD` at `cccc333`. -/
def repoW : GitRepo :=
  ⟨[("v1", "aaaa111"), ("v1.2.0", "aaaa111"), ("v1.1.0", "bbbb222")],
   [("v1", "aaaa111")], "cccc333"⟩

/-- Witness for `C3` on a concrete repository. -/
theorem cascade_spec_witness :
    lookupTag repoW.localTags "v1" = some "aaaa111" ∧
    lookupTag repoW.localTags "v1.2.0" = some "aaaa111" ∧
    (main envAll ⟨.answer "update", .answer "v1.2.0", .answer true, .answer true⟩ repoW).changes =
      [⟨"v1.2.0", "aaaa111", "cccc333"⟩, ⟨"v1", "aaaa111", "cccc333"⟩] ∧
    lookupTag (main envAll ⟨.answer "update", .answer "v1.2.0", .answer true, .answer true⟩ repoW).repo.remoteTags "v1" = some "cccc333" := by
  have h := cascade_spec envAll repoW "v1.2.0" "v1" "aaaa111" rfl rfl rfl
    rfl rfl rfl rfl rfl rfl (by decide) (by decide) (by decide) (by decide)
    (by decide)
  exact ⟨by decide, by decide, h.2.1.trans (by decide), h.2.2.2.1⟩

/-- Claim C6: in the update workflow, when the root tag `R` resolves to a commit
different from the selected tag's pre-update commit, only the selected tag is
retargeted: exactly one Change Record, the root tag's local and remote refs
are unchanged, and the cascade prompt's answer is never consulted (the run is
identical for every value of it). -/
theorem no_cascade_spec (env : Env) (r : GitRepo) (S R CS CR : String)
    (cr cr' : PromptResult Bool)
    (hrepo : env.repoOk = true) (hfetch : env.fetchOk = true)
    (hhead : env.headOk = true)
    (hdS : env.deleteOk S = true) (hcS : env.createOk S = true)
    (hpS : env.pushOk S = true)
    (hS0 : S ≠ "")
    (hroot : getRootTag (r.localTags.map Prod.fst) = some R)
    (hlR : lookupTag r.localTags R = some CR)
    (hlS : lookupTag r.localTags S = some CS)
    (hCC : CR ≠ CS) :
    (main env ⟨.answer "update", .answer S, .answer true, cr⟩ r).exitCode = 0 ∧
    (main env ⟨.answer "update", .answer S, .answer true, cr⟩ r).changes = [⟨S, CS, r.head⟩] ∧
    lookupTag (main env ⟨.answer "update", .answer S, .answer true, cr⟩ r).repo.localTags R = lookupTag r.localTags R ∧
    lookupTag (main env ⟨.answer "update", .answer S, .answer true, cr⟩ r).repo.remoteTags R = lookupTag r.remoteTags R ∧
    main env ⟨.answer "update", .answer S, .answer true, cr⟩ r =
      main env ⟨.answer "update", .answer S, .answer true, cr'⟩ r := by
  have hSR : S ≠ R := by
    intro h
    subst h
    rw [hlS] at hlR
    exact hCC (Option.some.inj hlR).symm
  have hSmem : S ∈ r.localTags.map Prod.fst :=
    lookupTag_mem_map_fst _ _ _ hlS
  have hSfilter : S ∈ filterNonRootTags (r.localTags.map Prod.fst) := by
    unfold filterNonRootTags
    rw [hroot]
    exact List.mem_filter.mpr ⟨hSmem, by simp [hSR]⟩
  have hne : ¬((filterNonRootTags (r.localTags.map Prod.fst)).length = 0) := by
    intro h0
    rw [List.length_eq_zero] at h0
    rw [h0] at hSfilter
    simp at hSfilter
  unfold main mainBody
  simp only [isGitRepo, hrepo, if_true, ite_true, getTags, hfetch,
    getLatestCommitHash, hhead, getCommitOfTag, hlR, hlS,
    if_neg hne, if_neg hS0]
  rw [hroot]
  simp only [hlR, if_neg hCC]
  rw [updateTag_ok_spec env r [] S r.head CS hlS hdS hcS hpS]
  simp only [summarize, List.isEmpty_cons, ite_false, List.map_cons,
    List.map_nil]
  refine ⟨trivial, trivial, ?_, ?_, trivial⟩
  · have hx : lookupTag (removeTag r.localTags S) R = some CR := by
      rw [lookupTag_removeTag_ne _ _ _ (Ne.symm hSR)]
      exact hlR
    rw [lookupTag_append_left _ _ _ _ hx]
  · exact lookupTag_setTag_ne _ _ _ _ (Ne.symm hSR)

/-- Witness for `C6` on a concrete repository. -/
theorem no_cascade_spec_witness :
    lookupTag repoW.localTags "v1" = some "aaaa111" ∧
    lookupTag repoW.localTags "v1.1.0" = some "bbbb222" ∧
    (main envAll ⟨.answer "update", .answer "v1.1.0", .answer true, .answer true⟩ repoW).changes =
      [⟨"v1.1.0", "bbbb222", "cccc333"⟩] ∧
    lookupTag (main envAll ⟨.answer "update", .answer "v1.1.0", .answer true, .answer true⟩ repoW).repo.remoteTags "v1" =
      lookupTag repoW.remoteTags "v1" := by
  have h := no_cascade_spec envAll repoW "v1.1.0" "v1" "bbbb222" "aaaa111"
    (.answer true) (.answer false) rfl rfl rfl rfl rfl rfl (by decide)
    (by decide) (by decide) (by decide) (by decide)
  exact ⟨by decide, by decide, h.2.1.trans (by decide), h.2.2.2.1⟩

lemma getTags_exited (env : Env) (r : GitRepo) (log log2 : List String)
    (n : Nat) (h : getTags env r log = (.exited n, log2)) : n = 1 := by
  unfold getTags at h
  split at h <;> simp_all

lemma getLatestCommitHash_exited (env : Env) (r : GitRepo)
    (log log2 : List String) (n : Nat)
    (h : getLatestCommitHash env r log = (.exited n, log2)) : n = 1 := by
  unfold getLatestCommitHash at h
  split at h <;> simp_all

lemma getCommitOfTag_exited (r : GitRepo) (tag : String)
    (log log2 : List String) (n : Nat)
    (h : getCommitOfTag r tag log = (.exited n, log2)) : n = 1 := by
  unfold getCommitOfTag at h
  split at h <;> simp_all

lemma updateTag_exited (env : Env) (r : GitRepo) (log : List String)
    (tag dest : String) (n : Nat) (r2 : GitRepo) (log2 : List String)
    (h : updateTag env r log tag dest = (.exited n, r2, log2)) : n = 1 := by
  rcases updateTag_shape env r log tag dest with hx | ⟨oldC, _, _, _, _, hok⟩
  · rw [h] at hx
    simpa using hx
  · rw [h] at hok
    simp at hok

lemma updateRootTag_exited (env : Env) (r : GitRepo) (log : List String)
    (tag dest : String) (n : Nat) (r2 : GitRepo) (log2 : List String)
    (h : updateRootTag env r log tag dest = (.exited n, r2, log2)) : n = 1 := by
  rcases updateRootTag_shape env r log tag dest with hx | ⟨oldC, _, _, _, _, hok⟩
  · rw [h] at hx
    simpa using hx
  · rw [h] at hok
    simp at hok

lemma mainBody_outcomes (env : Env) (inp : UserInput) (r : GitRepo) :
    (∃ r2 cs lg, mainBody env inp r = (.exited 1, r2, cs, lg)) ∨
    (∃ r2 cs lg, mainBody env inp r = (.threw .exitPromptError, r2, cs, lg)) ∨
    (∃ r2 cs lg, mainBody env inp r = (.ok true, r2, cs, lg)) ∨
    (env.repoOk = false ∧
      mainBody env inp r = (.ok false, r, [], ["Not a Git repository."])) := by
  unfold mainBody
  cases hrepo : env.repoOk with
  | false =>
    right; right; right
    refine ⟨rfl, ?_⟩
    simp [isGitRepo, hrepo]
  | true =>
    simp only [isGitRepo, hrepo, if_true, ite_true]
    rcases ha : inp.action with act | _
    rotate_left
    next =>
      right; left
      exact ⟨_, _, _, rfl⟩
    next =>
      by_cases hact : act = "update"
      · simp only [if_pos hact]
        rcases hg : getTags env r [] with ⟨gres, glog⟩
        cases gres with
        | exited k =>
          have hk := getTags_exited env r [] glog k hg
          subst hk
          left
          exact ⟨_, _, _, rfl⟩
        | ok tags =>
          by_cases hlen : (filterNonRootTags tags).length = 0
          · simp only [if_pos hlen]
            left
            exact ⟨_, _, _, rfl⟩
          · simp only [if_neg hlen]
            rcases hsel : inp.selectTag with S | _
            rotate_left
            next =>
              right; left
              exact ⟨_, _, _, rfl⟩
            next =>
              by_cases hS0 : S = ""
              · simp only [if_pos hS0]
                left
                exact ⟨_, _, _, rfl⟩
              · simp only [if_neg hS0]
                rcases hlat : getLatestCommitHash env r glog with ⟨lres, llog⟩
                cases lres with
                | exited k =>
                  have hk := getLatestCommitHash_exited env r glog llog k hlat
                  subst hk
                  left
                  exact ⟨_, _, _, rfl⟩
                | ok D =>
                  simp only []
                  rcases hcf : inp.confirmUpdate with b | _
                  rotate_left
                  next =>
                    right; left
                    exact ⟨_, _, _, rfl⟩
                  next =>
                    cases b with
                    | false =>
                      right; right; left
                      exact ⟨_, _, _, rfl⟩
                    | true =>
                      rcases hroot : getRootTag tags with _ | R
                      · simp only []
                        rcases hu : updateTag env r llog S D with ⟨ures, r1, ulog⟩
                        cases ures with
                        | exited k =>
                          have hk := updateTag_exited env r llog S D k r1 ulog hu
                          subst hk
                          left
                          exact ⟨_, _, _, rfl⟩
                        | ok ch =>
                          right; right; left
                          exact ⟨_, _, _, rfl⟩
                      · simp only []
                        rcases hc1 : getCommitOfTag r R llog with ⟨cres, clog⟩
                        cases cres with
                        | exited k =>
                          have hk := getCommitOfTag_exited r R llog clog k hc1
                          subst hk
                          left
                          exact ⟨_, _, _, rfl⟩
                        | ok CR =>
                          simp only []
                          rcases hc2 : getCommitOfTag r S clog with ⟨cres2, clog2⟩
                          cases cres2 with
                          | exited k =>
                            have hk := getCommitOfTag_exited r S clog clog2 k hc2
                            subst hk
                            left
                            exact ⟨_, _, _, rfl⟩
                          | ok CS =>
                            by_cases hEq : CR = CS
                            · simp only [if_pos hEq]
                              rcases hu : updateTag env r clog2 S D with ⟨ures, r1, ulog⟩
                              cases ures with
                              | exited k =>
                                have hk := updateTag_exited env r clog2 S D k r1 ulog hu
                                subst hk
                                left
                                exact ⟨_, _, _, rfl⟩
                              | ok ch =>
                                simp only []
                                rcases hcr : inp.confirmRoot with b2 | _
                                rotate_left
                                next =>
                                  right; left
                                  exact ⟨_, _, _, rfl⟩
                                next =>
                                  cases b2 with
                                  | false =>
                                    right; right; left
                                    exact ⟨_, _, _, rfl⟩
                                  | true =>
                                    rcases hur : updateRootTag env r1
                                        (ulog ++ [s!"Tag {S} was updated. Found a matching root tag {R}."])
                                        R D with ⟨rres, r3, rlog⟩
                                    cases rres with
                                    | exited k =>
                                      have hk := updateRootTag_exited env r1 _ R D k r3 rlog hur
                                      subst hk
                                      left
                                      exact ⟨_, _, _, rfl⟩
                                    | ok ch2 =>
                                      right; right; left
                                      exact ⟨_, _, _, rfl⟩
                            · simp only [if_neg hEq]
                              rcases hu : updateTag env r clog2 S D with ⟨ures, r1, ulog⟩
                              cases ures with
                              | exited k =>
                                have hk := updateTag_exited env r clog2 S D k r1 ulog hu
                                subst hk
                                left
                                exact ⟨_, _, _, rfl⟩
                              | ok ch =>
                                right; right; left
                                exact ⟨_, _, _, rfl⟩
      · by_cases hbump : act = "bump"
        · simp only [if_neg hact, if_pos hbump]
          rcases hg : getTags env r [] with ⟨gres, glog⟩
          cases gres with
          | exited k =>
            have hk := getTags_exited env r [] glog k hg
            subst hk
            left
            exact ⟨_, _, _, rfl⟩
          | ok tags =>
            by_cases hlen : (filterVersionTags tags).length = 0
            · simp only [if_pos hlen]
              left
              exact ⟨_, _, _, rfl⟩
            · simp only [if_neg hlen]
              rcases hsel : inp.selectTag with S | _
              rotate_left
              next =>
                right; left
                exact ⟨_, _, _, rfl⟩
              next =>
                by_cases hS0 : S = ""
                · simp only [if_pos hS0]
                  left
                  exact ⟨_, _, _, rfl⟩
                · simp only [if_neg hS0]
                  rcases hroot : getRootTag tags with _ | R
                  · left
                    exact ⟨_, _, _, rfl⟩
                  · simp only []
                    rcases hc1 : getCommitOfTag r S glog with ⟨cres, clog⟩
                    cases cres with
                    | exited k =>
                      have hk := getCommitOfTag_exited r S glog clog k hc1
                      subst hk
                      left
                      exact ⟨_, _, _, rfl⟩
                    | ok CS =>
                      simp only []
                      rcases hcf : inp.confirmUpdate with b | _
                      rotate_left
                      next =>
                        right; left
                        exact ⟨_, _, _, rfl⟩
                      next =>
                        cases b with
                        | false =>
                          right; right; left
                          exact ⟨_, _, _, rfl⟩
                        | true =>
                          rcases hur : updateRootTag env r clog R CS with ⟨rres, r3, rlog⟩
                          cases rres with
                          | exited k =>
                            have hk := updateRootTag_exited env r clog R CS k r3 rlog hur
                            subst hk
                            left
                            exact ⟨_, _, _, rfl⟩
                          | ok ch2 =>
                            right; right; left
                            exact ⟨_, _, _, rfl⟩
        · simp only [if_neg hact, if_neg hbump]
          left
          exact ⟨_, _, _, rfl⟩

/-- Environment whose repository check fails; everything else succeeds. -/
def envNoRepo : Env := ⟨false, true, true, fun _ => true, fun _ => true, fun _ => true⟩

/-- Environment where every push is rejected; everything else succeeds. -/
def envNoPush : Env := ⟨true, true, true, fun _ => true, fun _ => true, fun _ => false⟩

/-- Claim C2 counterexample: when the repository check fails, `main` returns early
without calling `process.exit`, so the process terminates with status 0 after
printing the error — not with a non-zero status as claimed. -/
theorem not_a_repo_exit_zero_counterexample :
    (main envNoRepo ⟨.answer "update", .answer "v1.1.0", .answer true, .answer true⟩ repoW).exitCode = 0 ∧
    (main envNoRepo ⟨.answer "update", .answer "v1.1.0", .answer true, .answer true⟩ repoW).log =
      ["Not a Git repository."] ∧
    (main envNoRepo ⟨.answer "update", .answer "v1.1.0", .answer true, .answer true⟩ repoW).completed = false := by
  decide

/-- Claim C2 amended: when the repository check fails the process prints
`Not a Git repository.` and exits with status 0 through `main`'s early
return, performing no retargets; apart from that case the process exits 0
only by falling off the end of a completed workflow, and every exit status
is 0 or 1. -/
theorem exit_semantics :
    (∀ (env : Env) (inp : UserInput) (r : GitRepo), env.repoOk = false →
        main env inp r = ⟨0, r, [], ["Not a Git repository."], false⟩) ∧
    (∀ (env : Env) (inp : UserInput) (r : GitRepo),
        (main env inp r).exitCode = 0 →
        env.repoOk = false ∨ (main env inp r).completed = true) ∧
    (∀ (env : Env) (inp : UserInput) (r : GitRepo),
        (main env inp r).exitCode = 0 ∨ (main env inp r).exitCode = 1) := by
  refine ⟨?_, ?_, ?_⟩
  · intro env inp r h
    unfold main mainBody
    simp [isGitRepo, h]
  · intro env inp r h0
    rcases mainBody_outcomes env inp r with ⟨r2, cs, lg, hb⟩ | ⟨r2, cs, lg, hb⟩ |
      ⟨r2, cs, lg, hb⟩ | ⟨hrf, hb⟩
    · exfalso
      unfold main at h0
      rw [hb] at h0
      simp at h0
    · exfalso
      unfold main at h0
      rw [hb] at h0
      simp [mainCatch] at h0
    · right
      unfold main
      rw [hb]
    · left
      exact hrf
  · intro env inp r
    rcases mainBody_outcomes env inp r with ⟨r2, cs, lg, hb⟩ | ⟨r2, cs, lg, hb⟩ |
      ⟨r2, cs, lg, hb⟩ | ⟨hrf, hb⟩
    · right
      unfold main
      rw [hb]
    · right
      unfold main
      rw [hb]
      simp [mainCatch]
    · left
      unfold main
      rw [hb]
    · left
      unfold main
      rw [hb]

/-- Witness for `C2`'s amended theorem at a concrete run. -/
theorem exit_semantics_witness :
    envNoRepo.repoOk = false ∧
    main envNoRepo ⟨.answer "update", .answer "v1.1.0", .answer true, .answer true⟩ repoW =
      ⟨0, repoW, [], ["Not a Git repository."], false⟩ ∧
    (envNoRepo.repoOk = false ∨
      (main envNoRepo ⟨.answer "update", .answer "v1.1.0", .answer true, .answer true⟩ repoW).completed = true) :=
  ⟨rfl,
   exit_semantics.1 envNoRepo ⟨.answer "update", .answer "v1.1.0", .answer true, .answer true⟩ repoW rfl,
   exit_semantics.2.1 envNoRepo ⟨.answer "update", .answer "v1.1.0", .answer true, .answer true⟩ repoW (by decide)⟩

/-- Claim C9: an `ExitPromptError` (user abandoning a prompt) is reported with
the neutral `Canceled by User` message, every other uncaught error with the
generic `An unexpected error occurred.` message; both paths exit with a
non-zero status, and a run whose first prompt is abandoned ends with status 1
and the neutral message. -/
theorem cancellation_distinct :
    (∀ log : List String,
        mainCatch .exitPromptError log = (1, log ++ ["Canceled by User"])) ∧
    (∀ log : List String,
        mainCatch .otherError log = (1, log ++ ["An unexpected error occurred."])) ∧
    (∀ (e : JsError) (log : List String), (mainCatch e log).1 ≠ 0) ∧
    (∀ (env : Env) (inp : UserInput) (r : GitRepo),
        env.repoOk = true → inp.action = .cancel →
        main env inp r = ⟨1, r, [], ["Canceled by User"], false⟩) := by
  refine ⟨fun log => rfl, fun log => rfl, ?_, ?_⟩
  · intro e log
    cases e <;> simp [mainCatch]
  · intro env inp r hrepo hc
    unfold main mainBody
    simp [isGitRepo, hrepo, hc, mainCatch]

/-- Witness for `C9` at a concrete run whose first prompt is abandoned. -/
theorem cancellation_distinct_witness :
    mainCatch .exitPromptError [] = (1, ["Canceled by User"]) ∧
    main envAll ⟨.cancel, .answer "v1.1.0", .answer true, .answer true⟩ repoW =
      ⟨1, repoW, [], ["Canceled by User"], false⟩ :=
  ⟨cancellation_distinct.1 [],
   cancellation_distinct.2.2.2 envAll ⟨.cancel, .answer "v1.1.0", .answer true, .answer true⟩ repoW rfl rfl⟩

/-- Claim C4: a Change Record is returned only when delete, create and push all
succeeded; a create or push failure makes the retarget end in
`process.exit(1)` with no record, and in the update workflow a failing push
ends the whole run with status 1 and an empty change list. -/
theorem change_record_requires_success :
    (∀ (env : Env) (r : GitRepo) (log : List String) (tag dest : String)
        (ch : Change) (r2 : GitRepo) (log2 : List String),
        updateTag env r log tag dest = (.ok ch, r2, log2) →
        env.deleteOk tag = true ∧ env.createOk tag = true ∧
          env.pushOk tag = true) ∧
    (∀ (env : Env) (r : GitRepo) (log : List String) (tag dest : String),
        env.createOk tag = false ∨ env.pushOk tag = false →
        (updateTag env r log tag dest).1 = .exited 1) ∧
    (∀ (env : Env) (r : GitRepo) (S : String) (cr : PromptResult Bool),
        env.repoOk = true → env.pushOk S = false →
        (main env ⟨.answer "update", .answer S, .answer true, cr⟩ r).exitCode = 1 ∧
        (main env ⟨.answer "update", .answer S, .answer true, cr⟩ r).changes = []) := by
  refine ⟨?_, ?_, ?_⟩
  · intro env r log tag dest ch r2 log2 h
    rcases updateTag_shape env r log tag dest with hx | ⟨oldC, hl, hd, hc, hp, hok⟩
    · rw [h] at hx
      simp at hx
    · exact ⟨hd, hc, hp⟩
  · intro env r log tag dest hfail
    rcases updateTag_shape env r log tag dest with hx | ⟨oldC, hl, hd, hc, hp, hok⟩
    · exact hx
    · exfalso
      rcases hfail with hf | hf
      · rw [hc] at hf
        cases hf
      · rw [hp] at hf
        cases hf
  · intro env r S cr hrepo hpS
    have hx : ∀ (log : List String) (dest : String),
        (updateTag env r log S dest).1 = GitResult.exited 1 := by
      intro log dest
      rcases updateTag_shape env r log S dest with h | ⟨oldC, _, _, _, hp, _⟩
      · exact h
      · rw [hp] at hpS
        cases hpS
    unfold main mainBody
    simp only [isGitRepo, hrepo, if_true, ite_true]
    rcases hg : getTags env r [] with ⟨gres, glog⟩
    cases gres with
    | exited k =>
      have hk := getTags_exited env r [] glog k hg
      subst hk
      exact ⟨by trivial, by trivial⟩
    | ok tags =>
      by_cases hlen : (filterNonRootTags tags).length = 0
      · simp only [if_pos hlen]
        exact ⟨by trivial, by trivial⟩
      · simp only [if_neg hlen]
        by_cases hS0 : S = ""
        · simp only [if_pos hS0]
          exact ⟨by trivial, by trivial⟩
        · simp only [if_neg hS0]
          rcases hlat : getLatestCommitHash env r glog with ⟨lres, llog⟩
          cases lres with
          | exited k =>
            have hk := getLatestCommitHash_exited env r glog llog k hlat
            subst hk
            exact ⟨by trivial, by trivial⟩
          | ok D =>
            simp only []
            rcases hroot : getRootTag tags with _ | R
            · simp only []
              rcases hu : updateTag env r llog S D with ⟨ures, r1, ulog⟩
              have hures : ures = GitResult.exited 1 := by
                have h2 := hx llog D
                rw [hu] at h2
                exact h2
              subst hures
              exact ⟨by trivial, by trivial⟩
            · simp only []
              rcases hc1 : getCommitOfTag r R llog with ⟨cres, clog⟩
              cases cres with
              | exited k =>
                have hk := getCommitOfTag_exited r R llog clog k hc1
                subst hk
                exact ⟨by trivial, by trivial⟩
              | ok CR =>
                simp only []
                rcases hc2 : getCommitOfTag r S clog with ⟨cres2, clog2⟩
                cases cres2 with
                | exited k =>
                  have hk := getCommitOfTag_exited r S clog clog2 k hc2
                  subst hk
                  exact ⟨by trivial, by trivial⟩
                | ok CS =>
                  by_cases hEq : CR = CS
                  · simp only [if_pos hEq]
                    rcases hu : updateTag env r clog2 S D with ⟨ures, r1, ulog⟩
                    have hures : ures = GitResult.exited 1 := by
                      have h2 := hx clog2 D
                      rw [hu] at h2
                      exact h2
                    subst hures
                    exact ⟨by trivial, by trivial⟩
                  · simp only [if_neg hEq]
                    rcases hu : updateTag env r clog2 S D with ⟨ures, r1, ulog⟩
                    have hures : ures = GitResult.exited 1 := by
                      have h2 := hx clog2 D
                      rw [hu] at h2
                      exact h2
                    subst hures
                    exact ⟨by trivial, by trivial⟩

/-- Witness for `C4` with a concrete run whose push is rejected. -/
theorem change_record_requires_success_witness :
    envNoPush.pushOk "v1.1.0" = false ∧
    (updateTag envNoPush repoW [] "v1.1.0" "cccc333").1 = .exited 1 ∧
    (main envNoPush ⟨.answer "update", .answer "v1.1.0", .answer true, .answer true⟩ repoW).exitCode = 1 ∧
    (main envNoPush ⟨.answer "update", .answer "v1.1.0", .answer true, .answer true⟩ repoW).changes = [] := by
  have h3 := change_record_requires_success.2.2 envNoPush repoW "v1.1.0"
    (.answer true) rfl rfl
  exact ⟨rfl,
    change_record_requires_success.2.1 envNoPush repoW [] "v1.1.0" "cccc333" (Or.inr rfl),
    h3.1, h3.2⟩

/-- Claim C5: `updateTag` and `updateRootTag` resolve the tag's current commit
before mutating, then delete, recreate at the destination and force-push in
that order (visible in the message sequence and the state updates), and on
success return `{ tag, oldCommitHash, newCommitHash }` with the pre-update
commit as `oldCommitHash` and the destination as `newCommitHash`. -/
theorem retarget_spec (env : Env) (r : GitRepo) (log : List String)
    (tag dest oldC : String)
    (hl : lookupTag r.localTags tag = some oldC)
    (hd : env.deleteOk tag = true) (hc : env.createOk tag = true)
    (hp : env.pushOk tag = true) :
    updateTag env r log tag dest =
      (.ok ⟨tag, oldC, dest⟩,
       ⟨removeTag r.localTags tag ++ [(tag, dest)],
        setTag r.remoteTags tag dest, r.head⟩,
       log ++ [s!"Updating tag {tag} to point to commit {shortenCommitHash dest}",
               s!"Local tag {tag} deleted.",
               s!"Tag {tag} force-pushed to GitHub.",
               s!"Tag {tag} updated from {shortenCommitHash oldC} to {shortenCommitHash dest}"]) ∧
    updateRootTag env r log tag dest =
      (.ok ⟨tag, oldC, dest⟩,
       ⟨removeTag r.localTags tag ++ [(tag, dest)],
        setTag r.remoteTags tag dest, r.head⟩,
       log ++ [s!"Updating root tag {tag} to point to commit {shortenCommitHash dest}",
               s!"Local tag {tag} deleted.",
               s!"Tag {tag} force-pushed to GitHub.",
               s!"Root tag {tag} updated from {shortenCommitHash oldC} to {shortenCommitHash dest}"]) :=
  ⟨updateTag_ok_spec env r log tag dest oldC hl hd hc hp,
   updateRootTag_ok_spec env r log tag dest oldC hl hd hc hp⟩

/-- Claim C8: retargeting a tag to the commit it already points at performs the
identical delete/create/push sequence as any other retarget (all three step
messages appear and the state goes through the same delete-then-recreate
shape; there is no short-circuit on `old = new`), and the resulting Change
Record has equal old and new commits. -/
theorem retarget_idempotent (env : Env) (r : GitRepo) (log : List String)
    (tag c : String)
    (hl : lookupTag r.localTags tag = some c)
    (hd : env.deleteOk tag = true) (hc : env.createOk tag = true)
    (hp : env.pushOk tag = true) :
    updateTag env r log tag c =
      (.ok ⟨tag, c, c⟩,
       ⟨removeTag r.localTags tag ++ [(tag, c)],
        setTag r.remoteTags tag c, r.head⟩,
       log ++ [s!"Updating tag {tag} to point to commit {shortenCommitHash c}",
               s!"Local tag {tag} deleted.",
               s!"Tag {tag} force-pushed to GitHub.",
               s!"Tag {tag} updated from {shortenCommitHash c} to {shortenCommitHash c}"]) ∧
    (⟨tag, c, c⟩ : Change).oldCommitHash = (⟨tag, c, c⟩ : Change).newCommitHash :=
  ⟨updateTag_ok_spec env r log tag c c hl hd hc hp, rfl⟩

/-- Witness for `C5` on a concrete repository. -/
theorem retarget_spec_witness :
    lookupTag repoW.localTags "v1.1.0" = some "bbbb222" ∧
    updateTag envAll repoW [] "v1.1.0" "cccc333" =
      (.ok ⟨"v1.1.0", "bbbb222", "cccc333"⟩,
       ⟨[("v1", "aaaa111"), ("v1.2.0", "aaaa111"), ("v1.1.0", "cccc333")],
        [("v1", "aaaa111"), ("v1.1.0", "cccc333")], "cccc333"⟩,
       ["Updating tag v1.1.0 to point to commit cccc333",
        "Local tag v1.1.0 deleted.",
        "Tag v1.1.0 force-pushed to GitHub.",
        "Tag v1.1.0 updated from bbbb222 to cccc333"]) := by
  have h := retarget_spec envAll repoW [] "v1.1.0" "cccc333" "bbbb222"
    (by decide) rfl rfl rfl
  exact ⟨by decide, h.1.trans (by decide)⟩

/-- Witness for `C8` on a concrete repository: `v1` is retargeted to the
commit it already points at. -/
theorem retarget_idempotent_witness :
    lookupTag repoW.localTags "v1" = some "aaaa111" ∧
    updateTag envAll repoW [] "v1" "aaaa111" =
      (.ok ⟨"v1", "aaaa111", "aaaa111"⟩,
       ⟨[("v1.2.0", "aaaa111"), ("v1.1.0", "bbbb222"), ("v1", "aaaa111")],
        [("v1", "aaaa111")], "cccc333"⟩,
       ["Updating tag v1 to point to commit aaaa111",
        "Local tag v1 deleted.",
        "Tag v1 force-pushed to GitHub.",
        "Tag v1 updated from aaaa111 to aaaa111"]) := by
  have h := retarget_idempotent envAll repoW [] "v1" "aaaa111"
    (by decide) rfl rfl rfl
  exact ⟨by decide, h.1.trans (by decide)⟩

/-- Claim C1 counterexample: `getRootTag`'s regex `^v\d+` also matches dotted
version tags, so on `["v2.3"]` it returns `v2.3` even though no element is a
bare major-version tag (the claim predicts absent), and on `["v2.3", "v2"]`
it skips the bare-major tag `v2`. -/
theorem getRootTag_bare_major_counterexample :
    getRootTag ["v2.3"] = some "v2.3" ∧
    bareMajorSpec "v2.3" = false ∧
    getRootTagSpec ["v2.3"] = none ∧
    getRootTag ["v2.3", "v2"] = some "v2.3" ∧
    bareMajorSpec "v2" = true ∧ "v2.3" ≠ "v2" := by
  decide

/-- Claim C1 amended: `getRootTag` returns the first element matching `^v\d+`
(a `v` followed by at least one digit, whether or not a `.minor` follows,
so `v2.3` qualifies as well as `v2`), and returns absent exactly when no
element matches that pattern. -/
theorem getRootTag_first_match :
    (∀ (l1 l2 : List String) (t : String),
        testRootPattern t = true →
        (∀ u ∈ l1, testRootPattern u = false) →
        getRootTag (l1 ++ t :: l2) = some t) ∧
    (∀ tags : List String,
        getRootTag tags = none ↔ ∀ t ∈ tags, testRootPattern t = false) := by
  constructor
  · intro l1 l2 t ht hl1
    induction l1 with
    | nil => simp [getRootTag, List.find?_cons, ht]
    | cons u us ih =>
      have hu : testRootPattern u = false := hl1 u (by simp)
      have ih' := ih (fun x hx => hl1 x (by simp [hx]))
      simpa [getRootTag, List.find?_cons, hu] using ih'
  · intro tags
    simp [getRootTag, List.find?_eq_none]

/-- Witness for `C1`'s amended theorem at a concrete tag list. -/
theorem getRootTag_first_match_witness :
    testRootPattern "v3" = true ∧
    getRootTag (["release-1"] ++ "v3" :: ["v1"]) = some "v3" :=
  ⟨by decide,
   getRootTag_first_match.1 ["release-1"] ["v1"] "v3" (by decide) (by decide)⟩

/-- Claim C7: when a root tag is identified, `filterNonRootTags` excludes it,
keeps every other tag with its multiplicity, and preserves order (the result
is a sublist of the input); when no element matches `^v\d+`, the input is
returned unchanged. -/
theorem filterNonRootTags_spec :
    (∀ (tags : List String) (rootTag : String),
        getRootTag tags = some rootTag →
        rootTag ∉ filterNonRootTags tags ∧
        (∀ t : String, t ≠ rootTag →
            (filterNonRootTags tags).count t = tags.count t) ∧
        List.Sublist (filterNonRootTags tags) tags) ∧
    (∀ tags : List String,
        (∀ t ∈ tags, testRootPattern t = false) →
        filterNonRootTags tags = tags) := by
  constructor
  · intro tags rootTag h
    unfold filterNonRootTags
    rw [h]
    exact ⟨not_mem_filter_ne rootTag tags,
      fun t ht => count_filter_ne t rootTag tags ht,
      List.filter_sublist tags⟩
  · intro tags h
    have hn : getRootTag tags = none := by
      simp [getRootTag, List.find?_eq_none]
      exact fun t ht => by simp [h t ht]
    unfold filterNonRootTags
    rw [hn]

/-- Witness for `C7` at concrete tag lists. -/
theorem filterNonRootTags_spec_witness :
    getRootTag ["a", "v1", "b"] = some "v1" ∧
    "v1" ∉ filterNonRootTags ["a", "v1", "b"] ∧
    (filterNonRootTags ["a", "v1", "b"]).count "b" =
      (["a", "v1", "b"] : List String).count "b" ∧
    filterNonRootTags ["x", "y"] = ["x", "y"] :=
  ⟨by decide,
   (filterNonRootTags_spec.1 ["a", "v1", "b"] "v1" (by decide)).1,
   (filterNonRootTags_spec.1 ["a", "v1", "b"] "v1" (by decide)).2.1 "b" (by decide),
   filterNonRootTags_spec.2 ["x", "y"] (by decide)⟩

/-- Claim C10: every tag matching the version pattern `^v\d+\.\d+` also matches
the root pattern `^v\d+`, so whenever `filterVersionTags` is non-empty,
`getRootTag` finds a tag — the bump workflow's fatal `No root tag found`
exit is unreachable with a non-empty version-tag selection list. -/
theorem versionTags_have_root :
    (∀ s : String, testVersionPattern s = true → testRootPattern s = true) ∧
    (∀ tags : List String, filterVersionTags tags ≠ [] →
        (getRootTag tags).isSome = true) := by
  constructor
  · exact testVersion_imp_testRoot
  · intro tags h
    rcases hf : filterVersionTags tags with _ | ⟨t, ts⟩
    · exact absurd hf h
    · have ht : t ∈ filterVersionTags tags := by rw [hf]; simp
      have ht' := List.mem_filter.mp ht
      rcases hg : getRootTag tags with _ | r
      · rw [getRootTag, List.find?_eq_none] at hg
        exact absurd (testVersion_imp_testRoot t ht'.2)
          (by simpa using hg t ht'.1)
      · rfl

/-- Witness for `C10` at a concrete tag list. -/
theorem versionTags_have_root_witness :
    filterVersionTags ["v1.2"] ≠ [] ∧
    (getRootTag ["v1.2"]).isSome = true :=
  ⟨by decide, versionTags_have_root.2 ["v1.2"] (by decide)⟩

end TagBumper
